import Mathlib

/-!
Verification of the DEVI intraday trading engine against its specification.

This file gives a shallow embedding, over exact rational arithmetic, of the
pieces of the Python source that the checked claims are about:

* `core/models/ohlcv.py` — the `Bar` constructor and its validation;
* `core/orchestration/structure_exit_planner.py` — `StructureExitPlanner.plan`
  with broker clamps and the RR gate;
* `core/orchestration/pipeline.py` — the early-guard phase of
  `TradingPipeline.process_bar` (market guard, bar counter, circuit breaker,
  volatility pause), the per-decision risk sizing loop, the decision
  deduplication step, and the consecutive-send-failure counter update;
* `core/execution/mt5_executor.py` — the adaptive retry (retcode 10016)
  stop/volume recomputation;
* `core/orchestration/trade_journal.py` — `TradeJournal.record_outcome`;
* `core/orchestration/symbol_onboarding.py` —
  `SymbolOnboardingManager.record_decisions`.

Python `Decimal` values and floats are modelled as `ℚ`; `Decimal.quantize`
with `ROUND_HALF_UP` (ties away from zero), Python's builtin `round` (ties to
even) and `int()` (truncation toward zero) are modelled exactly below.
Timestamps are modelled as rational numbers of seconds.
-/

set_option maxRecDepth 100000

namespace DEVI

/-- Python `max(a, b)` on numbers: returns `b` only when `a < b`. -/
def qMax (a b : ℚ) : ℚ := if a < b then b else a

/-- Python `min(a, b)` on numbers: returns `b` only when `b < a`. -/
def qMin (a b : ℚ) : ℚ := if b < a then b else a

/-- Python `abs(q)`. -/
def qAbs (q : ℚ) : ℚ := if q < 0 then -q else q

/-- `Decimal.quantize(Decimal(0), rounding=ROUND_HALF_UP)`: round to the
nearest integer, ties away from zero. -/
def decRoundHalfUp (q : ℚ) : ℤ :=
  if 0 ≤ q then ⌊q + 1/2⌋ else -⌊-q + 1/2⌋

/-- Python `int(q)`: truncation toward zero (exact on rationals). -/
def pyTrunc (q : ℚ) : ℤ := Int.tdiv q.num q.den

/-- Python builtin `round(q)`: round to nearest integer, ties to even. -/
def pyRoundInt (q : ℚ) : ℤ :=
  let f := ⌊q⌋
  let r := q - f
  if r < 1/2 then f else if 1/2 < r then f + 1 else if f % 2 = 0 then f else f + 1

/-- Python `round(q, nd)`: round to `nd` decimal places, ties to even. -/
def pyRoundAt (q : ℚ) (nd : ℕ) : ℚ :=
  (pyRoundInt (q * 10 ^ nd) : ℚ) / 10 ^ nd

theorem qMax_eq_max (a b : ℚ) : qMax a b = max a b := by
  unfold qMax
  rcases lt_or_ge a b with h | h
  · simp [h, max_eq_right h.le]
  · simp [not_lt.mpr h, max_eq_left h]

theorem qMin_eq_min (a b : ℚ) : qMin a b = min a b := by
  unfold qMin
  rcases lt_or_ge b a with h | h
  · simp [h, min_eq_right h.le]
  · simp [not_lt.mpr h, min_eq_left h]

theorem qAbs_eq_abs (q : ℚ) : qAbs q = |q| := by
  unfold qAbs
  rcases lt_or_ge q 0 with h | h
  · simp [h, abs_of_neg h]
  · simp [not_lt.mpr h, abs_of_nonneg h]

/-! ## Bar model (`core/models/ohlcv.py`)

`Bar.__post_init__` raises `ValueError` when `high < low`, when
`high < open or high < close`, or when `low > open or low > close`.
There is no check on `volume`.  `mkBar` returns `none` exactly when the
constructor raises. -/

structure Bar where
  open_ : ℚ
  high : ℚ
  low : ℚ
  close : ℚ
  volume : ℚ
  timestamp : ℚ
  deriving DecidableEq, Repr

/-- `Bar(open, high, low, close, volume, timestamp)` with the
`__post_init__` validation of `core/models/ohlcv.py`. -/
def mkBar (open_ high low close volume timestamp : ℚ) : Option Bar :=
  if high < low then none
  else if high < open_ ∨ high < close then none
  else if low > open_ ∨ low > close then none
  else some ⟨open_, high, low, close, volume, timestamp⟩

end DEVI

namespace DEVI

/-- **C7 counterexample.** A bar with valid OHLC ordering but `volume = -1`
is accepted by the `Bar` constructor: construction does *not* fail on
negative volume, contradicting the claim that it raises whenever
`volume < 0`. -/
theorem bar_negative_volume_accepted :
    mkBar 1 2 0 1 (-1) 0 = some ⟨1, 2, 0, 1, -1, 0⟩ ∧ (-1 : ℚ) < 0 := by
  constructor
  · decide
  · norm_num

/-- **C7 (amended).** Constructing a `Bar` succeeds iff
`low ≤ min(open, close)` and `max(open, close) ≤ high`; every successfully
constructed bar therefore satisfies the OHLC ordering invariant
`low ≤ min(open,close) ≤ max(open,close) ≤ high`.  Volume is not validated. -/
theorem bar_construction_iff_ohlc (o h l c v t : ℚ) :
    ((mkBar o h l c v t).isSome ↔ (l ≤ min o c ∧ max o c ≤ h)) ∧
    (∀ b, mkBar o h l c v t = some b →
      b.low ≤ min b.open_ b.close ∧ min b.open_ b.close ≤ max b.open_ b.close ∧
        max b.open_ b.close ≤ b.high) := by
  constructor
  · unfold mkBar
    by_cases h1 : h < l
    · simp only [h1, if_true]
      constructor
      · intro hs; simp at hs
      · rintro ⟨hl, hh⟩
        exact absurd (le_trans hl (le_trans (min_le_left o c) (le_trans (le_max_left o c) hh))) (not_le.mpr h1)
    · by_cases h2 : h < o ∨ h < c
      · simp only [h1, if_false, h2, if_true]
        constructor
        · intro hs; simp at hs
        · rintro ⟨hl, hh⟩
          rcases h2 with h2 | h2
          · exact absurd (le_trans (le_max_left o c) hh) (not_le.mpr h2)
          · exact absurd (le_trans (le_max_right o c) hh) (not_le.mpr h2)
      · by_cases h3 : l > o ∨ l > c
        · simp only [h1, if_false, h2, if_false, h3, if_true]
          constructor
          · intro hs; simp at hs
          · rintro ⟨hl, hh⟩
            rcases h3 with h3 | h3
            · exact absurd (le_trans hl (min_le_left o c)) (not_le.mpr h3)
            · exact absurd (le_trans hl (min_le_right o c)) (not_le.mpr h3)
        · simp only [h1, if_false, h2, if_false, h3, if_false]
          push_neg at h2 h3
          constructor
          · intro _
            exact ⟨le_min h3.1 h3.2, max_le h2.1 h2.2⟩
          · intro _; trivial
  · intro b hb
    unfold mkBar at hb
    by_cases h1 : h < l
    · simp [h1] at hb
    · by_cases h2 : h < o ∨ h < c
      · simp [h1, h2] at hb
      · by_cases h3 : l > o ∨ l > c
        · simp [h1, h2, h3] at hb
        · simp only [h1, if_false, h2, if_false, h3, if_false, Option.some.injEq] at hb
          push_neg at h2 h3
          subst hb
          exact ⟨le_min h3.1 h3.2, min_le_max, max_le h2.1 h2.2⟩

/-- **C7 (amended) witness.** The amended theorem evaluated at the concrete
bar `(1, 2, 0, 1, 5, 0)`. -/
theorem bar_construction_iff_ohlc_witness :
    (mkBar 1 2 0 1 5 0).isSome ∧
      ((0 : ℚ) ≤ min 1 1 ∧ max (1 : ℚ) 1 ≤ 2) := by
  refine ⟨?_, ?_⟩
  · exact (bar_construction_iff_ohlc 1 2 0 1 5 0).1.mpr (by norm_num)
  · norm_num

/-! ## Structure exit planner (`core/orchestration/structure_exit_planner.py`)

`StructureExitPlanner` walks the configured `exit_priority` list; each method
plans SL/TP, applies broker clamps (`_apply_broker_clamps`), and the result is
passed through the RR gate (`_apply_rr_gate_and_return`).  Decimal values are
`ℚ`; `_round_to_point` quantizes with `ROUND_HALF_UP`. -/

/-- Order side; the source compares `side.upper() == "BUY"`. -/
inductive Side
  | buy
  | sell
  deriving DecidableEq, Repr

/-- Broker metadata slice read by the planner (`self.broker`). -/
structure BrokerMeta where
  digits : ℤ
  point : ℚ
  min_stop_distance : ℚ
  max_stop_distance : Option ℚ
  deriving DecidableEq, Repr

/-- `sltp_planning.buffers` configuration (source defaults in comments). -/
structure PlannerBuffers where
  sl_atr_buffer : ℚ
  min_buffer_pips : ℚ
  max_buffer_pips : ℚ
  tp_extension_atr : ℚ
  deriving DecidableEq, Repr

/-- `sltp_planning` configuration slice read by the planner. -/
structure PlannerCfg where
  exit_priority : List String
  min_rr_gate : ℚ
  atr_fallback_enabled : Bool
  buffers : PlannerBuffers
  deriving DecidableEq, Repr

/-- `structures["order_block"]["nearest"]`. -/
structure ObNearest where
  lower_edge : ℚ
  upper_edge : ℚ
  deriving DecidableEq, Repr

/-- `structures["fair_value_gap"]["nearest"]`. -/
structure FvgNearest where
  gap_low : ℚ
  gap_high : ℚ
  deriving DecidableEq, Repr

/-- `structures["rejection"]["nearest"]`. -/
structure RejNearest where
  zone_low : ℚ
  zone_high : ℚ
  deriving DecidableEq, Repr

/-- The `structures` map passed to `plan` (nearest structure per type). -/
structure StructuresMap where
  order_block : Option ObNearest
  fair_value_gap : Option FvgNearest
  rejection : Option RejNearest
  deriving DecidableEq, Repr

/-- `_round_to_point`: quantize `price` to the point grid, half-up. -/
def roundToPoint (price point : ℚ) : ℚ :=
  if point = 0 then price else (decRoundHalfUp (price / point) : ℚ) * point

/-- Python `!=` on two rationals, as a `Bool`. -/
def qNe (a b : ℚ) : Bool := if a = b then false else true

/-- `_pip_to_price`: pip size is `10 × point` for 3/5-digit symbols. -/
def pipToPrice (broker : BrokerMeta) (pips : ℚ) : ℚ :=
  let mul : ℚ := if broker.digits = 3 ∨ broker.digits = 5 then 10 else 1
  pips * broker.point * mul

/-- `_compute_sl_buffer`: `clamp(min_buf, max_buf, sl_atr_buffer × atr)` in
price units (the `except` branch is unreachable for well-typed config). -/
def computeSlBuffer (cfg : PlannerCfg) (broker : BrokerMeta) (atr : ℚ) : ℚ :=
  qMax (pipToPrice broker cfg.buffers.min_buffer_pips)
    (qMin (pipToPrice broker cfg.buffers.max_buffer_pips) (cfg.buffers.sl_atr_buffer * atr))

/-- Inner `ensure_distance` of `_apply_broker_clamps`. -/
def ensureDistance (p away minimum : ℚ) (direction : ℤ) : ℚ :=
  let d := qAbs (p - away)
  if minimum ≤ d then p else p + (minimum - d) * (if 0 < direction then 1 else -1)

/-- `_apply_broker_clamps`: round SL/TP to the point grid, push them out to
`min_stop_distance`, cap at `max_stop_distance`, and reject (first component
`none`) when the cap breaks `sl < entry < tp` (BUY) / `tp < entry < sl`
(SELL).  The Bool is the `clamped` flag. -/
def applyBrokerClamps (broker : BrokerMeta) (entry sl tp : ℚ) (side : Side) :
    Option (ℚ × ℚ) × Bool :=
  let point := broker.point
  let sl_r := roundToPoint sl point
  let tp_r := roundToPoint tp point
  let clamped0 := qNe sl_r sl || qNe tp_r tp
  let sl1 := match side with
    | .buy => ensureDistance sl_r entry broker.min_stop_distance (-1)
    | .sell => ensureDistance sl_r entry broker.min_stop_distance 1
  let tp1 := match side with
    | .buy => ensureDistance tp_r entry broker.min_stop_distance 1
    | .sell => ensureDistance tp_r entry broker.min_stop_distance (-1)
  let sl2 := roundToPoint sl1 point
  let tp2 := roundToPoint tp1 point
  let clamped1 := clamped0 || qNe sl2 sl1 || qNe tp2 tp1
  match broker.max_stop_distance with
  | none => (some (sl2, tp2), clamped1)
  | some max_stop =>
    let d_sl := qAbs (entry - sl2)
    let d_tp := qAbs (tp2 - entry)
    let sl3 := if max_stop < d_sl then
        (match side with | .buy => entry - max_stop | .sell => entry + max_stop)
      else sl2
    let tp3 := if max_stop < d_tp then
        (match side with | .buy => entry + max_stop | .sell => entry - max_stop)
      else tp2
    let sl4 := roundToPoint sl3 point
    let tp4 := roundToPoint tp3 point
    let clamped2 := clamped1 || qNe sl4 sl3 || qNe tp4 tp3
    match side with
    | .buy => if sl4 < entry ∧ entry < tp4 then (some (sl4, tp4), clamped2) else (none, clamped2)
    | .sell => if tp4 < entry ∧ entry < sl4 then (some (sl4, tp4), clamped2) else (none, clamped2)

/-- A planned SL/TP candidate before the RR gate. -/
structure Planned where
  sl : ℚ
  tp : ℚ
  method : String
  clamped : Bool
  sl_requested : ℚ
  tp_requested : ℚ
  deriving DecidableEq, Repr

/-- Output of `plan` after the RR gate (`expected_rr` added). -/
structure PlanOut where
  sl : ℚ
  tp : ℚ
  method : String
  clamped : Bool
  sl_requested : ℚ
  tp_requested : ℚ
  expected_rr : ℚ
  deriving DecidableEq, Repr

/-- `_select_opposing_target`: edge of the nearest structure of `method` seen
from the opposite side. -/
def selectOpposingTarget (method : String) (side : Side) (structures : StructuresMap) :
    Option ℚ :=
  let oppBuy := side = Side.sell
  if method = "order_block" then
    match structures.order_block with
    | none => none
    | some nearest => some (if oppBuy then nearest.upper_edge else nearest.lower_edge)
  else if method = "fair_value_gap" then
    match structures.fair_value_gap with
    | none => none
    | some nearest => some (if oppBuy then nearest.gap_high else nearest.gap_low)
  else none

/-- `_plan_from_structure` (methods `order_block` and `fair_value_gap`). -/
def planFromStructure (cfg : PlannerCfg) (broker : BrokerMeta) (method : String)
    (side : Side) (entry atr : ℚ) (structures : StructuresMap) : Option Planned :=
  let sl_buf := computeSlBuffer cfg broker atr
  let tp_ext := cfg.buffers.tp_extension_atr * atr
  let sltp : Option (ℚ × ℚ) :=
    if method = "order_block" then
      match structures.order_block with
      | none => none
      | some nearest =>
        match side with
        | .buy =>
          let tp := (((selectOpposingTarget "order_block" Side.buy structures).orElse
            (fun _ => selectOpposingTarget "fair_value_gap" Side.buy structures)).getD
            (entry + tp_ext))
          some (nearest.lower_edge - sl_buf, tp)
        | .sell =>
          let tp := (((selectOpposingTarget "order_block" Side.sell structures).orElse
            (fun _ => selectOpposingTarget "fair_value_gap" Side.sell structures)).getD
            (entry - tp_ext))
          some (nearest.upper_edge + sl_buf, tp)
    else if method = "fair_value_gap" then
      match structures.fair_value_gap with
      | none => none
      | some nearest =>
        match side with
        | .buy => some (nearest.gap_low - sl_buf, nearest.gap_high)
        | .sell => some (nearest.gap_high + sl_buf, nearest.gap_low)
    else none
  match sltp with
  | none => none
  | some (sl, tp0) =>
    let tp := match side with
      | .buy => if tp0 ≤ entry then entry + tp_ext else tp0
      | .sell => if entry ≤ tp0 then entry - tp_ext else tp0
    match (applyBrokerClamps broker entry sl tp side).1,
        (applyBrokerClamps broker entry sl tp side).2 with
    | none, _ => none
    | some (sl', tp'), clamped => some ⟨sl', tp', method, clamped, sl, tp⟩

/-- `_plan_from_atr`. -/
def planFromAtr (cfg : PlannerCfg) (broker : BrokerMeta) (side : Side) (entry atr : ℚ) :
    Option Planned :=
  let sl_buf := computeSlBuffer cfg broker atr
  let tp_ext := cfg.buffers.tp_extension_atr * atr
  let sl_requested := match side with
    | .buy => entry - sl_buf
    | .sell => entry + sl_buf
  let tp_requested := match side with
    | .buy => entry + tp_ext
    | .sell => entry - tp_ext
  match (applyBrokerClamps broker entry sl_requested tp_requested side).1,
      (applyBrokerClamps broker entry sl_requested tp_requested side).2 with
  | none, _ => none
  | some (sl, tp), clamped => some ⟨sl, tp, "atr", clamped, sl_requested, tp_requested⟩

/-- `_plan_from_rejection`: SL beyond the rejection zone boundary, ATR TP. -/
def planFromRejection (cfg : PlannerCfg) (broker : BrokerMeta) (side : Side)
    (entry atr : ℚ) (structures : StructuresMap) : Option Planned :=
  match structures.rejection with
  | none => none
  | some nearest =>
    if side = Side.buy ∧ entry < nearest.zone_low then none
    else if side = Side.sell ∧ nearest.zone_high < entry then none
    else
      let sl_buf := computeSlBuffer cfg broker atr
      let tp_ext := cfg.buffers.tp_extension_atr * atr
      let sl_requested := match side with
        | .buy => nearest.zone_low - sl_buf
        | .sell => nearest.zone_high + sl_buf
      let tp_requested := match side with
        | .buy => entry + tp_ext
        | .sell => entry - tp_ext
      match (applyBrokerClamps broker entry sl_requested tp_requested side).1,
          (applyBrokerClamps broker entry sl_requested tp_requested side).2 with
      | none, _ => none
      | some (sl, tp), clamped => some ⟨sl, tp, "rejection", clamped, sl_requested, tp_requested⟩

/-- `risk, reward` as computed in `_apply_rr_gate_and_return`. -/
def riskReward (side : Side) (entry sl tp : ℚ) : ℚ × ℚ :=
  match side with
  | .buy => (entry - sl, tp - entry)
  | .sell => (sl - entry, entry - tp)

/-- The TP-extension block of `_apply_rr_gate_and_return` (the source
duplicates this block verbatim in its structure-method and ATR-method
branches): extend TP to `reward = min_rr × risk` keeping the original SL,
re-apply broker clamps, recompute RR and accept only when it now meets the
gate.  `extTarget` is the side-dependent extended TP `entry ± needed_reward`. -/
def extTarget (side : Side) (entry needed_reward : ℚ) : ℚ :=
  match side with
  | .buy => entry + needed_reward
  | .sell => entry - needed_reward

/-- See `extTarget`: the shared TP-extension-and-regate block of
`_apply_rr_gate_and_return`. -/
def extendAndRegate (cfg : PlannerCfg) (broker : BrokerMeta) (planned : Planned)
    (side : Side) (entry risk : ℚ) : Option PlanOut :=
  let new_tp := extTarget side entry (cfg.min_rr_gate * risk)
  match (applyBrokerClamps broker entry planned.sl new_tp side).1 with
  | some (sl2, tp2) =>
    let risk2 := (riskReward side entry sl2 tp2).1
    let reward2 := (riskReward side entry sl2 tp2).2
    if 0 < risk2 ∧ 0 < reward2 then
      let rr2 := reward2 / risk2
      if cfg.min_rr_gate ≤ rr2 then
        some ⟨sl2, tp2, planned.method, planned.clamped, planned.sl_requested,
          planned.tp_requested, rr2⟩
      else none
    else none
  | none => none

/-- `_apply_rr_gate_and_return`: reject non-positive risk/reward; if
`rr < min_rr_gate`, extend TP to `reward = min_rr × risk` (structure methods
only when `atr_fallback_enabled`), re-clamp and recompute; reject when still
below the gate. -/
def applyRRGateAndReturn (cfg : PlannerCfg) (broker : BrokerMeta) (planned : Planned)
    (side : Side) (entry : ℚ) : Option PlanOut :=
  let risk := (riskReward side entry planned.sl planned.tp).1
  let reward := (riskReward side entry planned.sl planned.tp).2
  if risk ≤ 0 ∨ reward ≤ 0 then none
  else
    let rr := reward / risk
    if rr < cfg.min_rr_gate then
      if planned.method ≠ "atr" ∧ cfg.atr_fallback_enabled then
        extendAndRegate cfg broker planned side entry risk
      else if planned.method = "atr" then
        extendAndRegate cfg broker planned side entry risk
      else none
    else
      some ⟨planned.sl, planned.tp, planned.method, planned.clamped, planned.sl_requested,
        planned.tp_requested, rr⟩

/-- The priority loop of `plan`: a method that yields a candidate hands it to
the RR gate and `plan` returns the gate's result directly (also when the gate
rejects); only a method with *no* candidate falls through to the next
priority. -/
def planGo (cfg : PlannerCfg) (broker : BrokerMeta) (side : Side) (entry atr : ℚ)
    (structures : StructuresMap) : List String → Option PlanOut
  | [] => none
  | method :: rest =>
    if method = "order_block" ∨ method = "fair_value_gap" then
      match planFromStructure cfg broker method side entry atr structures with
      | some planned => applyRRGateAndReturn cfg broker planned side entry
      | none => planGo cfg broker side entry atr structures rest
    else if method = "rejection" then
      match planFromRejection cfg broker side entry atr structures with
      | some planned => applyRRGateAndReturn cfg broker planned side entry
      | none => planGo cfg broker side entry atr structures rest
    else if method = "atr" then
      match planFromAtr cfg broker side entry atr with
      | some planned => applyRRGateAndReturn cfg broker planned side entry
      | none => planGo cfg broker side entry atr structures rest
    else planGo cfg broker side entry atr structures rest

/-- `StructureExitPlanner.plan` (empty priority list defaults to `["atr"]`). -/
def plan (cfg : PlannerCfg) (broker : BrokerMeta) (side : Side) (entry atr : ℚ)
    (structures : StructuresMap) : Option PlanOut :=
  let priority := if cfg.exit_priority = [] then ["atr"] else cfg.exit_priority
  planGo cfg broker side entry atr structures priority

/-- The TP-extension block only accepts plans meeting the gate. -/
theorem extendAndRegate_rr (cfg : PlannerCfg) (broker : BrokerMeta) (planned : Planned)
    (side : Side) (entry risk : ℚ) (p : PlanOut)
    (h : extendAndRegate cfg broker planned side entry risk = some p) :
    cfg.min_rr_gate ≤ p.expected_rr := by
  simp only [extendAndRegate] at h
  split at h
  · split at h
    · split at h
      · rename_i hge
        obtain rfl := Option.some.inj h
        exact hge
      · exact absurd h (by simp)
    · exact absurd h (by simp)
  · exact absurd h (by simp)

/-- Every plan the RR gate lets through carries `expected_rr ≥ min_rr_gate`. -/
theorem applyRRGateAndReturn_rr (cfg : PlannerCfg) (broker : BrokerMeta) (planned : Planned)
    (side : Side) (entry : ℚ) (p : PlanOut)
    (h : applyRRGateAndReturn cfg broker planned side entry = some p) :
    cfg.min_rr_gate ≤ p.expected_rr := by
  simp only [applyRRGateAndReturn] at h
  split at h
  · exact absurd h (by simp)
  · split at h
    · split at h
      · exact extendAndRegate_rr _ _ _ _ _ _ _ h
      · split at h
        · exact extendAndRegate_rr _ _ _ _ _ _ _ h
        · exact absurd h (by simp)
    · rename_i hnlt
      obtain rfl := Option.some.inj h
      exact le_of_not_lt hnlt

/-- Configuration used in the C1 counterexample: FVG first, then ATR, with a
tight `max_stop_distance` that defeats the FVG TP extension. -/
def cfgC1 : PlannerCfg := ⟨["fair_value_gap", "atr"], 3/2, true, ⟨3/20, 1, 10, 1⟩⟩

/-- Broker metadata for the C1 counterexample (point 0.1,
`max_stop_distance = 5`). -/
def brokerC1 : BrokerMeta := ⟨5, 1/10, 0, some 5⟩

/-- Structures map for the C1 counterexample: one bullish FVG far below the
entry, nothing else. -/
def structsC1 : StructuresMap := ⟨none, some ⟨2, 6⟩, none⟩

/-- **C1 counterexample.** With priority `[fair_value_gap, atr]`, entry 11
and ATR 10, the FVG method yields a candidate whose RR stays below the gate
even after TP extension (the `max_stop_distance = 5` cap pins both distances
at 5, so RR = 1), and `plan` returns `None` — even though the *next*
configured priority (`atr`) passes the gate (as running `plan` with priority
`["atr"]` shows).  This falsifies "if the method still fails the gate it is
rejected and the next method in the configured priority list is tried, and
plan returns None only when every priority fails the gate after clamping":
the planner returns the gate's rejection directly without trying later
priorities. -/
theorem plan_gate_failure_skips_later_priorities :
    plan cfgC1 brokerC1 Side.buy 11 10 structsC1 = none ∧
      (plan { cfgC1 with exit_priority := ["atr"] } brokerC1 Side.buy 11 10
        structsC1).isSome = true := by
  constructor
  · with_unfolding_all decide
  · with_unfolding_all decide

/-- **C1 (amended).** Whenever `StructureExitPlanner.plan` returns a plan,
its `expected_rr` is `≥ min_rr_gate`; when a method's initial RR is below the
gate the planner extends TP to `reward = min_rr × risk` keeping the original
SL, re-applies broker clamps and recomputes RR; a method that produces no
candidate falls through to the next priority, but when a produced candidate
still fails the gate after extension `plan` returns `None` immediately
without trying the remaining priorities. -/
theorem plan_expected_rr_ge_gate (cfg : PlannerCfg) (broker : BrokerMeta) (side : Side)
    (entry atr : ℚ) (structures : StructuresMap) (p : PlanOut)
    (h : plan cfg broker side entry atr structures = some p) :
    cfg.min_rr_gate ≤ p.expected_rr := by
  unfold plan at h
  revert h
  generalize (if cfg.exit_priority = [] then ["atr"] else cfg.exit_priority) = l
  induction l with
  | nil => intro h; simp [planGo] at h
  | cons m rest ih =>
    intro h
    unfold planGo at h
    split at h
    · split at h
      · exact applyRRGateAndReturn_rr _ _ _ _ _ _ h
      · exact ih h
    · split at h
      · split at h
        · exact applyRRGateAndReturn_rr _ _ _ _ _ _ h
        · exact ih h
      · split at h
        · split at h
          · exact applyRRGateAndReturn_rr _ _ _ _ _ _ h
          · exact ih h
        · exact ih h

/-- Concrete ATR-only planner configuration for the C1 witness. -/
def cfgW : PlannerCfg := ⟨["atr"], 3/2, true, ⟨3/20, 1, 10, 1⟩⟩

/-- Broker metadata for the C1 witness (no max-stop cap). -/
def brokerW : BrokerMeta := ⟨5, 1/10, 0, none⟩

/-- Empty structures map. -/
def structsEmpty : StructuresMap := ⟨none, none, none⟩

/-- The plan produced in the C1 witness scenario. -/
def planOutW : PlanOut := ⟨19/2, 21, "atr", false, 19/2, 21, 20/3⟩

/-- **C1 (amended) witness.** At entry 11, ATR 10 with the ATR-only
configuration, `plan` returns a concrete plan and the amended theorem yields
`expected_rr ≥ min_rr_gate` for it. -/
theorem plan_expected_rr_ge_gate_witness :
    plan cfgW brokerW Side.buy 11 10 structsEmpty = some planOutW ∧
      cfgW.min_rr_gate ≤ planOutW.expected_rr := by
  have hplan : plan cfgW brokerW Side.buy 11 10 structsEmpty = some planOutW := by
    with_unfolding_all decide
  exact ⟨hplan, plan_expected_rr_ge_gate cfgW brokerW Side.buy 11 10 structsEmpty
    planOutW hplan⟩

/-! ## Risk sizing (`TradingPipeline.process_bar`, `pipeline.py` lines 1182-1318)

The per-decision sizing loop: stop distance in points, broker hard floor,
volume from the per-trade risk budget snapped down to the lot step, min/max
lot clamps, and the per-symbol open-risk cap.  Floats are modelled as `ℚ`;
`max(point, 1e-12)` and `max(x, 1e-12)` guards are kept as in the source. -/

/-- The float literal `1e-12` used as a division guard in the source. -/
def eps12 : ℚ := 1/1000000000000

/-- Broker symbol metadata slice read by the sizing loop
(`self.broker_symbols[sym]`). -/
structure SymbolMeta where
  point : ℚ
  contract_size : ℚ
  volume_min : ℚ
  volume_max : ℚ
  volume_step : ℚ
  sl_hard_floor_points : ℚ
  deriving DecidableEq, Repr

/-- `stop_distance_points = abs(entry - sl) / max(point, 1e-12)`. -/
def stopDistancePoints (meta : SymbolMeta) (entry sl : ℚ) : ℚ :=
  qAbs (entry - sl) / qMax meta.point eps12

/-- `risk_budget = max(equity * per_trade_pct, 0.0)`. -/
def riskBudget (equity per_trade_pct : ℚ) : ℚ := qMax (equity * per_trade_pct) 0

/-- `steps = max(int(volume_raw / lot_step), 0)` where
`volume_raw = risk_budget / max(stop_distance_points * point_value_per_lot, 1e-12)`. -/
def snappedSteps (meta : SymbolMeta) (equity per_trade_pct entry sl : ℚ) : ℤ :=
  let point_value_per_lot := meta.contract_size * meta.point
  let volume_raw := riskBudget equity per_trade_pct /
    qMax (stopDistancePoints meta entry sl * point_value_per_lot) eps12
  max (pyTrunc (volume_raw / meta.volume_step)) 0

/-- `volume_rounded = steps * lot_step` (before the min-lot check). -/
def snappedVolume (meta : SymbolMeta) (equity per_trade_pct entry sl : ℚ) : ℚ :=
  (snappedSteps meta equity per_trade_pct entry sl : ℚ) * meta.volume_step

/-- `volume_rounded = min(volume_rounded, max_lot)` (after the min-lot check). -/
def cappedVolume (meta : SymbolMeta) (equity per_trade_pct entry sl : ℚ) : ℚ :=
  qMin (snappedVolume meta equity per_trade_pct entry sl) meta.volume_max

/-- `new_trade_risk = stop_distance_points * point_value_per_lot * volume_rounded`. -/
def newTradeRisk (meta : SymbolMeta) (equity per_trade_pct entry sl : ℚ) : ℚ :=
  stopDistancePoints meta entry sl * (meta.contract_size * meta.point) *
    cappedVolume meta equity per_trade_pct entry sl

/-- Outcome of the sizing loop body for one decision.  The first and third
constructors both log the `risk_too_small` event in the source; the second
logs `setup_rejected_tight_sl`, the fourth `risk_cap_hit`, and `sized`
corresponds to the `execution_sized` event. -/
inductive SizeOutcome
  | riskTooSmallNonPositiveStop
  | setupRejectedTightSL
  | riskTooSmallBelowMinLot
  | riskCapHit
  | sized (volume new_trade_risk : ℚ)
  deriving DecidableEq, Repr

/-- The guard sequence of the sizing loop body (`pipeline.py` 1202-1318). -/
def sizeDecision (meta : SymbolMeta) (equity per_trade_pct cap_pct open_risk_before
    entry sl : ℚ) : SizeOutcome :=
  let sdp := stopDistancePoints meta entry sl
  if sdp ≤ 0 then .riskTooSmallNonPositiveStop
  else if 0 < meta.sl_hard_floor_points ∧ sdp < meta.sl_hard_floor_points then
    .setupRejectedTightSL
  else if snappedVolume meta equity per_trade_pct entry sl < meta.volume_min then
    .riskTooSmallBelowMinLot
  else if equity * cap_pct <
      open_risk_before + newTradeRisk meta equity per_trade_pct entry sl then
    .riskCapHit
  else
    .sized (cappedVolume meta equity per_trade_pct entry sl)
      (newTradeRisk meta equity per_trade_pct entry sl)

/-- `pyTrunc` is dominated by its argument on nonnegative rationals. -/
theorem pyTrunc_le_self (q : ℚ) (hq : 0 ≤ q) : (pyTrunc q : ℚ) ≤ q := by
  have h1 : pyTrunc q = ⌊q⌋ := by
    unfold pyTrunc
    rw [Int.tdiv_eq_ediv (Rat.num_nonneg.mpr hq) (Int.ofNat_nonneg q.den), Rat.floor_def]
  rw [h1]
  exact Int.floor_le q

theorem eps12_pos : (0 : ℚ) < eps12 := by norm_num [eps12]

/-- The stop distance is never negative. -/
theorem stopDistancePoints_nonneg (meta : SymbolMeta) (entry sl : ℚ) :
    0 ≤ stopDistancePoints meta entry sl := by
  unfold stopDistancePoints
  apply div_nonneg
  · rw [qAbs_eq_abs]; exact abs_nonneg _
  · rw [qMax_eq_max]
    exact le_trans eps12_pos.le (le_max_right _ _)

/-- **C2.** Sizing invariants: any decision the sizing loop sizes carries a
volume snapped to a whole multiple of `volume_step` (or capped at
`volume_max`), clamped into `[volume_min, volume_max]`; its
`new_trade_risk = stop_distance_points × contract_size × point × volume`
satisfies `new_trade_risk ≤ equity × per_trade_pct` and
`open_risk_before + new_trade_risk ≤ equity × per_symbol_open_risk_cap_pct`.
A decision whose snapped volume falls below `volume_min` yields
`risk_too_small`, and one that would exceed the cap yields `risk_cap_hit`;
neither is sized. -/
theorem risk_sizing_invariants (meta : SymbolMeta) (equity ptp cpc orb entry sl : ℚ)
    (hpoint : 0 ≤ meta.point) (hcs : 0 ≤ meta.contract_size)
    (hstep : 0 < meta.volume_step) (hmm : meta.volume_min ≤ meta.volume_max)
    (heq : 0 ≤ equity) (hptp : 0 ≤ ptp) :
    (∀ v r, sizeDecision meta equity ptp cpc orb entry sl = .sized v r →
      meta.volume_min ≤ v ∧ v ≤ meta.volume_max ∧
      (∃ k : ℤ, v = (k : ℚ) * meta.volume_step ∨ v = meta.volume_max) ∧
      r = stopDistancePoints meta entry sl * (meta.contract_size * meta.point) * v ∧
      r ≤ equity * ptp ∧ orb + r ≤ equity * cpc) ∧
    (0 < stopDistancePoints meta entry sl →
      ¬(0 < meta.sl_hard_floor_points ∧
        stopDistancePoints meta entry sl < meta.sl_hard_floor_points) →
      snappedVolume meta equity ptp entry sl < meta.volume_min →
      sizeDecision meta equity ptp cpc orb entry sl = .riskTooSmallBelowMinLot) ∧
    (0 < stopDistancePoints meta entry sl →
      ¬(0 < meta.sl_hard_floor_points ∧
        stopDistancePoints meta entry sl < meta.sl_hard_floor_points) →
      ¬(snappedVolume meta equity ptp entry sl < meta.volume_min) →
      equity * cpc < orb + newTradeRisk meta equity ptp entry sl →
      sizeDecision meta equity ptp cpc orb entry sl = .riskCapHit) := by
  have hsdp0 := stopDistancePoints_nonneg meta entry sl
  refine ⟨?_, ?_, ?_⟩
  · intro v r h
    simp only [sizeDecision] at h
    split at h
    · exact absurd h (by simp)
    · split at h
      · exact absurd h (by simp)
      · split at h
        · exact absurd h (by simp)
        · split at h
          · exact absurd h (by simp)
          · rename_i hpos htight hmin hcap
            obtain ⟨rfl, rfl⟩ : cappedVolume meta equity ptp entry sl = v ∧
                newTradeRisk meta equity ptp entry sl = r := by
              cases h; exact ⟨rfl, rfl⟩
            push_neg at hmin hcap
            -- abbreviations
            set sdp := stopDistancePoints meta entry sl with hsdp_def
            have hpvl : 0 ≤ meta.contract_size * meta.point := mul_nonneg hcs hpoint
            have hA : 0 ≤ sdp * (meta.contract_size * meta.point) :=
              mul_nonneg hsdp0 hpvl
            have hMpos : 0 < qMax (sdp * (meta.contract_size * meta.point)) eps12 := by
              rw [qMax_eq_max]
              exact lt_of_lt_of_le eps12_pos (le_max_right _ _)
            have hbudget0 : 0 ≤ riskBudget equity ptp := by
              unfold riskBudget
              rw [qMax_eq_max]
              exact le_max_right _ _
            have hvraw0 : 0 ≤ riskBudget equity ptp /
                qMax (sdp * (meta.contract_size * meta.point)) eps12 :=
              div_nonneg hbudget0 hMpos.le
            -- the snapped volume is dominated by the raw volume
            have hsnap_le : snappedVolume meta equity ptp entry sl ≤
                riskBudget equity ptp /
                  qMax (sdp * (meta.contract_size * meta.point)) eps12 := by
              unfold snappedVolume snappedSteps
              rw [← hsdp_def]
              set vraw := riskBudget equity ptp /
                qMax (sdp * (meta.contract_size * meta.point)) eps12 with hvraw_def
              have hq0 : 0 ≤ vraw / meta.volume_step := div_nonneg hvraw0 hstep.le
              have hcast : ((max (pyTrunc (vraw / meta.volume_step)) 0 : ℤ) : ℚ) ≤
                  vraw / meta.volume_step := by
                push_cast
                exact max_le (pyTrunc_le_self _ hq0) hq0
              calc ((max (pyTrunc (vraw / meta.volume_step)) 0 : ℤ) : ℚ) * meta.volume_step
                  ≤ (vraw / meta.volume_step) * meta.volume_step :=
                    mul_le_mul_of_nonneg_right hcast hstep.le
                _ = vraw := div_mul_cancel₀ _ (ne_of_gt hstep)
            have hv_le_snap : cappedVolume meta equity ptp entry sl ≤
                snappedVolume meta equity ptp entry sl := by
              unfold cappedVolume
              rw [qMin_eq_min]
              exact min_le_left _ _
            have hr_le_budget : newTradeRisk meta equity ptp entry sl ≤
                riskBudget equity ptp := by
              unfold newTradeRisk
              rw [← hsdp_def]
              calc sdp * (meta.contract_size * meta.point) *
                    cappedVolume meta equity ptp entry sl
                  ≤ sdp * (meta.contract_size * meta.point) *
                    (riskBudget equity ptp /
                      qMax (sdp * (meta.contract_size * meta.point)) eps12) :=
                    mul_le_mul_of_nonneg_left (hv_le_snap.trans hsnap_le) hA
                _ ≤ qMax (sdp * (meta.contract_size * meta.point)) eps12 *
                    (riskBudget equity ptp /
                      qMax (sdp * (meta.contract_size * meta.point)) eps12) := by
                    apply mul_le_mul_of_nonneg_right _ (div_nonneg hbudget0 hMpos.le)
                    rw [qMax_eq_max]
                    exact le_max_left _ _
                _ = riskBudget equity ptp := mul_div_cancel₀ _ (ne_of_gt hMpos)
            have hbudget_eq : riskBudget equity ptp = equity * ptp := by
              unfold riskBudget
              rw [qMax_eq_max]
              exact max_eq_left (mul_nonneg heq hptp)
            refine ⟨?_, ?_, ?_, rfl, ?_, ?_⟩
            · unfold cappedVolume
              rw [qMin_eq_min]
              exact le_min hmin hmm
            · unfold cappedVolume
              rw [qMin_eq_min]
              exact min_le_right _ _
            · refine ⟨snappedSteps meta equity ptp entry sl, ?_⟩
              unfold cappedVolume
              rw [qMin_eq_min]
              rcases le_total (snappedVolume meta equity ptp entry sl) meta.volume_max with
                hle | hle
              · exact Or.inl (by rw [min_eq_left hle]; rfl)
              · exact Or.inr (min_eq_right hle)
            · rw [← hbudget_eq]; exact hr_le_budget
            · exact hcap
  · intro hpos htight hmin
    simp only [sizeDecision]
    rw [if_neg (not_le.mpr hpos), if_neg htight, if_pos hmin]
  · intro hpos htight hmin hcap
    simp only [sizeDecision]
    rw [if_neg (not_le.mpr hpos), if_neg htight, if_neg hmin, if_pos hcap]

/-- Broker metadata for the C2 witness. -/
def metaC2 : SymbolMeta := ⟨1/10, 10, 1/100, 100, 1/100, 0⟩

/-- **C2 witness.** Equity 400, `per_trade_pct = 1/16` (budget 25), entry 11,
SL 6, point 0.1, contract size 10: stop distance = 50 points, volume snaps to
0.5 and `new_trade_risk = 25 ≤ 25`; the open-risk cap `equity/8 = 50` holds. -/
theorem risk_sizing_invariants_witness :
    sizeDecision metaC2 400 (1/16) (1/8) 0 11 6 = .sized (1/2) 25 ∧
      (metaC2.volume_min ≤ 1/2 ∧ (1/2 : ℚ) ≤ metaC2.volume_max ∧
        (∃ k : ℤ, (1/2 : ℚ) = (k : ℚ) * metaC2.volume_step ∨ (1/2 : ℚ) = metaC2.volume_max) ∧
        (25 : ℚ) = stopDistancePoints metaC2 11 6 * (metaC2.contract_size * metaC2.point) * (1/2) ∧
        (25 : ℚ) ≤ 400 * (1/16) ∧ (0 : ℚ) + 25 ≤ 400 * (1/8)) := by
  have hsized : sizeDecision metaC2 400 (1/16) (1/8) 0 11 6 = .sized (1/2) 25 := by
    with_unfolding_all decide
  refine ⟨hsized, ?_⟩
  exact (risk_sizing_invariants metaC2 400 (1/16) (1/8) 0 11 6 (by norm_num [metaC2])
    (by norm_num [metaC2]) (by norm_num [metaC2]) (by norm_num [metaC2]) (by norm_num)
    (by norm_num)).1 (1/2) 25 hsized

/-! ## `process_bar` early-guard phase (`pipeline.py` lines 830-946)

Market-open / symbol-tradable guard (which returns *before* the bar
counter), `processed_bars += 1` (the counter's only mutation site in
`process_bar`, line 884), the circuit breaker, and the volatility pause
block (auto-resume, active check, trigger).  Timestamps are rational
seconds; the spread/ATR spike conditions are external data, abstracted as
booleans.

The `SessionManager` pause API (`clear_pause_if_elapsed`, `is_paused`,
`pause_until`) and `get_max_full_sl_hits` are called by the pipeline but not
defined in `session_manager.py` in this tree (only the `_paused_until_ts`
field is declared); the pause predicates are modelled from the spec. -/

/-- Modelled from the spec: `SessionManager.is_paused`, missing from
`session_manager.py` (only the `_paused_until_ts` field and the pipeline
call sites exist).  "While paused, bars are accepted but no decisions are
produced": paused iff a deadline is set and the clock has not passed it. -/
def isPaused (paused_until : Option ℚ) (ts : ℚ) : Bool :=
  match paused_until with
  | some u => if ts < u then true else false
  | none => false

/-- Modelled from the spec: `SessionManager.clear_pause_if_elapsed`, missing
from `session_manager.py`.  "Auto-resume clears the pause when the clock
passes `paused_until`": returns the new deadline and whether it cleared. -/
def clearPauseIfElapsed (paused_until : Option ℚ) (ts : ℚ) : Option ℚ × Bool :=
  match paused_until with
  | some u => if u ≤ ts then (none, true) else (some u, false)
  | none => (none, false)

/-- The pipeline state touched by the guard phase. -/
structure Phase1State where
  processed_bars : ℕ
  paused_until : Option ℚ
  deriving DecidableEq, Repr

/-- Per-bar external inputs of the guard phase: market guards, session
counters, and the volatility-pause configuration and trigger inputs. -/
structure Phase1Ctx where
  market_open : Bool
  symbol_tradable : Bool
  full_sl_hits : ℕ
  max_full_sl_hits : ℕ
  vp_enable : Bool
  spread_bad : Bool
  atr_bad : Bool
  min_pause_seconds : ℚ
  deriving DecidableEq, Repr

/-- How the guard phase ends.  Every outcome except `proceed` returns the
(still empty) `decisions` list from `process_bar`. -/
inductive Phase1Outcome
  | marketClosedSkip
  | circuitBreakerTripped
  | pauseActive
  | pauseTriggered
  | proceed
  deriving DecidableEq, Repr

/-- Result of the guard phase. -/
structure Phase1Result where
  state : Phase1State
  outcome : Phase1Outcome
  pause_cleared : Bool
  deriving DecidableEq, Repr

/-- The guard phase of `process_bar` (`pipeline.py` 875-946): market guard
(early return *before* the counter), `processed_bars += 1`, circuit breaker,
pause auto-resume, pause-active check, pause trigger. -/
def processBarPhase1 (st : Phase1State) (ctx : Phase1Ctx) (ts : ℚ) : Phase1Result :=
  if ¬(ctx.market_open ∧ ctx.symbol_tradable) then ⟨st, .marketClosedSkip, false⟩
  else
    let st1 : Phase1State := { st with processed_bars := st.processed_bars + 1 }
    if ctx.max_full_sl_hits ≤ ctx.full_sl_hits then ⟨st1, .circuitBreakerTripped, false⟩
    else
      let pc := clearPauseIfElapsed st1.paused_until ts
      let st2 : Phase1State := { st1 with paused_until := pc.1 }
      if isPaused st2.paused_until ts then ⟨st2, .pauseActive, pc.2⟩
      else if ctx.vp_enable ∧ (ctx.spread_bad ∨ ctx.atr_bad) then
        ⟨{ st2 with paused_until := some (ts + ctx.min_pause_seconds) }, .pauseTriggered, pc.2⟩
      else ⟨st2, .proceed, pc.2⟩

/-- **C4 counterexample.** On a market-closed bar, `process_bar` returns at
line 876-881 *before* the `processed_bars += 1` increment at line 884, so
the counter does not advance — contradicting the claim that the counter
advances by exactly one on every early-returning guard path including the
market-closed skip. -/
theorem processed_bars_market_closed_not_counted :
    (processBarPhase1 ⟨0, none⟩ ⟨false, true, 0, 5, false, false, false, 120⟩ 0).state.processed_bars
        = 0 ∧
      (processBarPhase1 ⟨0, none⟩ ⟨false, true, 0, 5, false, false, false, 120⟩ 0).outcome
        = .marketClosedSkip := by
  constructor
  · with_unfolding_all decide
  · with_unfolding_all decide

/-- **C4 (amended).** `processed_bars` advances by exactly one on every bar
that passes the market-open / symbol-tradable guard — including the
circuit-breaker, volatility-pause and later early returns (the increment at
`pipeline.py:884` is the counter's only mutation site in `process_bar`) —
and does not advance on the market-closed skip, which returns before the
increment. -/
theorem processed_bars_increment (st : Phase1State) (ctx : Phase1Ctx) (ts : ℚ) :
    (processBarPhase1 st ctx ts).state.processed_bars =
      (if ctx.market_open ∧ ctx.symbol_tradable then st.processed_bars + 1
        else st.processed_bars) := by
  simp only [processBarPhase1]
  by_cases hmo : (ctx.market_open ∧ ctx.symbol_tradable : Prop)
  · rw [if_neg (not_not_intro hmo), if_pos hmo]
    split
    · rfl
    · split
      · rfl
      · split
        · rfl
        · rfl
  · rw [if_pos hmo, if_neg hmo]

/-- **C3.** While a volatility pause deadline is active (`ts < paused_until`)
the bar is accepted (counter advances, no error) but the guard phase ends in
`pauseActive`, returning the empty decisions list, and the pause is
retained; on the first bar with `paused_until ≤ ts` the pause is cleared
(`volatility_pause_cleared`) and the pause check no longer blocks — the only
way a new deadline can exist afterwards is a fresh trigger
(`ts + min_pause_seconds`). -/
theorem volatility_pause_blocks_then_clears (st : Phase1State) (ctx : Phase1Ctx)
    (ts u : ℚ) (hpause : st.paused_until = some u)
    (hopen : ctx.market_open = true) (htrad : ctx.symbol_tradable = true)
    (hcb : ctx.full_sl_hits < ctx.max_full_sl_hits) :
    (ts < u → processBarPhase1 st ctx ts =
      ⟨⟨st.processed_bars + 1, some u⟩, .pauseActive, false⟩) ∧
    (u ≤ ts → (processBarPhase1 st ctx ts).pause_cleared = true ∧
      (processBarPhase1 st ctx ts).outcome ≠ .pauseActive ∧
      ((processBarPhase1 st ctx ts).state.paused_until = none ∨
        (processBarPhase1 st ctx ts).state.paused_until = some (ts + ctx.min_pause_seconds))) := by
  have hguard : ¬¬(ctx.market_open ∧ ctx.symbol_tradable : Prop) := by
    simp [hopen, htrad]
  have hcb' : ¬(ctx.max_full_sl_hits ≤ ctx.full_sl_hits) := not_le.mpr hcb
  constructor
  · intro hlt
    simp only [processBarPhase1, clearPauseIfElapsed, isPaused, hpause]
    rw [if_neg hguard, if_neg hcb', if_neg (not_le.mpr hlt)]
    simp only [if_pos hlt]
    rfl
  · intro hge
    have hres : processBarPhase1 st ctx ts =
        (if ctx.vp_enable ∧ (ctx.spread_bad ∨ ctx.atr_bad) then
          ⟨⟨st.processed_bars + 1, some (ts + ctx.min_pause_seconds)⟩, .pauseTriggered, true⟩
        else ⟨⟨st.processed_bars + 1, none⟩, .proceed, true⟩) := by
      simp only [processBarPhase1, clearPauseIfElapsed, isPaused, hpause]
      rw [if_neg hguard, if_neg hcb', if_pos hge]
      simp
    rw [hres]
    split
    · exact ⟨rfl, by simp, Or.inr rfl⟩
    · exact ⟨rfl, by simp, Or.inl rfl⟩

/-- **C3 witness.** A pipeline paused until t = 100: a bar at t = 50 is
counted but produces no decisions (`pauseActive`) with the pause retained; a
bar at t = 150 clears the pause. -/
theorem volatility_pause_blocks_then_clears_witness :
    processBarPhase1 ⟨3, some 100⟩ ⟨true, true, 0, 5, false, false, false, 120⟩ 50 =
      ⟨⟨4, some 100⟩, .pauseActive, false⟩ ∧
      (processBarPhase1 ⟨3, some 100⟩ ⟨true, true, 0, 5, false, false, false, 120⟩ 150).pause_cleared
        = true := by
  constructor
  · exact (volatility_pause_blocks_then_clears ⟨3, some 100⟩
      ⟨true, true, 0, 5, false, false, false, 120⟩ 50 100 rfl rfl rfl (by norm_num)).1
      (by norm_num)
  · exact ((volatility_pause_blocks_then_clears ⟨3, some 100⟩
      ⟨true, true, 0, 5, false, false, false, 120⟩ 150 100 rfl rfl rfl (by norm_num)).2
      (by norm_num)).1

/-! ## Consecutive send-failure counter (`pipeline.py` lines 1559-1586)

In LIVE mode with real orders enabled, after each `execute_order` result:
success resets `_consecutive_send_failures` and `_last_failure_time`; an
unsuccessful result that is not a pre-check block increments the counter and
stamps the failure time; then, if a failure time is set, the counter is
positive and more than `_failure_cooldown_seconds` have elapsed, the counter
is reset emitting `failure_counter_cooldown_reset`. -/

/-- `_consecutive_send_failures` and `_last_failure_time`. -/
structure FailState where
  count : ℕ
  last_failure : Option ℚ
  deriving DecidableEq, Repr

/-- The fields of `ExecutionResult` the counter update reads
(`mt5_executor.py` 30-54): `success` and `precheck_block`. -/
structure SendOutcome where
  success : Bool
  precheck_block : Bool
  deriving DecidableEq, Repr

/-- One post-send update of the failure counter (`pipeline.py` 1559-1586).
The returned Bool is the `failure_counter_cooldown_reset` event. -/
def failureCounterStep (cooldown : ℚ) (st : FailState) (r : SendOutcome) (now : ℚ) :
    FailState × Bool :=
  let st1 : FailState :=
    if r.success then ⟨0, none⟩
    else if ¬r.precheck_block then ⟨st.count + 1, some now⟩
    else st
  match st1.last_failure with
  | some t => if 0 < st1.count ∧ cooldown < now - t then (⟨0, none⟩, true) else (st1, false)
  | none => (st1, false)

/-- **C5.** The counter increments only on an unsuccessful send with
`precheck_block = false`, and then by exactly one; a pre-check block never
increments it; a successful send resets it to zero; and when more than
`failure_cooldown_seconds` have elapsed since the last failure it is reset
to zero with a `failure_counter_cooldown_reset` event. -/
theorem failure_counter_properties (cooldown : ℚ) (st : FailState) (r : SendOutcome)
    (now : ℚ) :
    (st.count < (failureCounterStep cooldown st r now).1.count →
      r.success = false ∧ r.precheck_block = false ∧
      (failureCounterStep cooldown st r now).1.count = st.count + 1) ∧
    (r.success = false → r.precheck_block = true →
      (failureCounterStep cooldown st r now).1.count ≤ st.count) ∧
    (r.success = true → (failureCounterStep cooldown st r now).1.count = 0) ∧
    (∀ t, r.success = false → r.precheck_block = true → st.last_failure = some t →
      0 < st.count → cooldown < now - t →
      failureCounterStep cooldown st r now = (⟨0, none⟩, true)) := by
  have hsucc : r.success = true → failureCounterStep cooldown st r now =
      ((⟨0, none⟩ : FailState), false) := by
    intro h
    simp [failureCounterStep, h]
  have hreal : r.success = false → r.precheck_block = false →
      failureCounterStep cooldown st r now =
        (if cooldown < 0 then ((⟨0, none⟩ : FailState), true)
          else ((⟨st.count + 1, some now⟩ : FailState), false)) := by
    intro h1 h2
    simp [failureCounterStep, h1, h2, sub_self]
  have hpre : r.success = false → r.precheck_block = true →
      failureCounterStep cooldown st r now =
        (match st.last_failure with
        | some t =>
          if 0 < st.count ∧ cooldown < now - t then ((⟨0, none⟩ : FailState), true)
          else (st, false)
        | none => (st, false)) := by
    intro h1 h2
    simp [failureCounterStep, h1, h2]
  refine ⟨?_, ?_, ?_, ?_⟩
  · intro hlt
    cases hs : r.success
    · cases hpb : r.precheck_block
      · rw [hreal hs hpb] at hlt ⊢
        refine ⟨rfl, rfl, ?_⟩
        by_cases hcd : cooldown < 0
        · rw [if_pos hcd] at hlt
          exact absurd hlt (Nat.not_lt_zero _)
        · rw [if_neg hcd] at hlt ⊢
      · exfalso
        rw [hpre hs hpb] at hlt
        rcases hst : st.last_failure with _ | t <;> rw [hst] at hlt
        · exact absurd hlt (lt_irrefl _)
        · split at hlt
          case h_1 => split at hlt <;> simp_all
          case h_2 => simp_all
    · rw [hsucc hs] at hlt
      simp at hlt
  · intro hs hpb
    rw [hpre hs hpb]
    rcases hst : st.last_failure with _ | t
    · exact le_refl _
    · show (if 0 < st.count ∧ cooldown < now - t then ((⟨0, none⟩ : FailState), true)
        else (st, false)).1.count ≤ st.count
      split
      · exact Nat.zero_le _
      · exact le_refl _
  · intro hs
    rw [hsucc hs]
  · intro t hs hpb hlf hc hcool
    rw [hpre hs hpb, hlf]
    exact if_pos ⟨hc, hcool⟩

/-- **C5 witness.** With a cooldown of 300 s and two prior failures (last at
t = 0): a successful send at t = 10 resets the counter to zero, and a
pre-check block at t = 400 (more than the cooldown since the last failure)
resets the counter to zero with the `failure_counter_cooldown_reset` event. -/
theorem failure_counter_properties_witness :
    (failureCounterStep 300 ⟨2, some 0⟩ ⟨true, false⟩ 10).1.count = 0 ∧
      failureCounterStep 300 ⟨2, some 0⟩ ⟨false, true⟩ 400 = (⟨0, none⟩, true) := by
  constructor
  · exact (failure_counter_properties 300 ⟨2, some 0⟩ ⟨true, false⟩ 10).2.2.1 rfl
  · exact (failure_counter_properties 300 ⟨2, some 0⟩ ⟨false, true⟩ 400).2.2.2 0 rfl rfl rfl
      (by norm_num) (by norm_num)

/-! ## Decision deduplication (`pipeline.py` lines 972-989)

When decision generation emits more than one decision in a bar, the list is
sorted by `float(d.confidence_score or 0.0)` descending (Python's stable
sort) and only the head is kept, logging `decisions_deduplicated`. -/

/-- The slice of a `Decision` the dedup step reads: its confidence score
(`None` allowed) plus a tag standing for the rest of the record. -/
structure DecSummary where
  confidence_score : Option ℚ
  tag : ℕ
  deriving DecidableEq, Repr

/-- `float(d.confidence_score or 0.0)`: `None` (and `0.0`) map to `0.0`. -/
def confKey (d : DecSummary) : ℚ := d.confidence_score.getD 0

/-- Head of the stable descending sort: the earliest decision of maximal
key (replace the candidate only on strictly greater key). -/
def bestDecision (d : DecSummary) (rest : List DecSummary) : DecSummary :=
  rest.foldl (fun b x => if confKey b < confKey x then x else b) d

/-- The dedup step: lists of length ≤ 1 pass through; otherwise keep only
the best decision and log `decisions_deduplicated` (the Bool). -/
def dedupDecisions (ds : List DecSummary) : List DecSummary × Bool :=
  match ds with
  | [] => ([], false)
  | [d] => ([d], false)
  | d :: rest => ([bestDecision d rest], true)

/-- `bestDecision` is a member of the list and dominates every element. -/
theorem bestDecision_spec (d : DecSummary) (rest : List DecSummary) :
    bestDecision d rest ∈ d :: rest ∧
      ∀ e ∈ d :: rest, confKey e ≤ confKey (bestDecision d rest) := by
  induction rest generalizing d with
  | nil =>
    refine ⟨List.mem_singleton.mpr rfl, ?_⟩
    intro e he
    rw [List.mem_singleton.mp he]
    exact le_refl _
  | cons x xs ih =>
    have hstep : bestDecision d (x :: xs) =
        bestDecision (if confKey d < confKey x then x else d) xs := rfl
    obtain ⟨ihmem, ihbound⟩ := ih (if confKey d < confKey x then x else d)
    have hd : confKey d ≤ confKey (if confKey d < confKey x then x else d) := by
      split
      · rename_i h; exact le_of_lt h
      · exact le_refl _
    have hx : confKey x ≤ confKey (if confKey d < confKey x then x else d) := by
      split
      · exact le_refl _
      · rename_i h; exact le_of_not_lt h
    have hbest := ihbound _ (List.mem_cons_self _ _)
    constructor
    · rw [hstep]
      rcases List.mem_cons.mp ihmem with hcase | hcase
      · rw [hcase]
        split
        · exact List.mem_cons_of_mem _ (List.mem_cons_self _ _)
        · exact List.mem_cons_self _ _
      · exact List.mem_cons_of_mem _ (List.mem_cons_of_mem _ hcase)
    · intro e he
      rw [hstep]
      rcases List.mem_cons.mp he with rfl | he'
      · exact hd.trans hbest
      · rcases List.mem_cons.mp he' with rfl | he''
        · exact hx.trans hbest
        · exact ihbound _ (List.mem_cons_of_mem _ he'')

/-- **C6.** At most one decision survives the dedup step, and whenever more
than one decision was produced, the step keeps exactly one decision of
maximal confidence key (the earliest under ties, matching the stable sort),
drops the others, and logs a `decisions_deduplicated` event. -/
theorem dedup_keeps_best (ds : List DecSummary) :
    (dedupDecisions ds).1.length ≤ 1 ∧
      (1 < ds.length → ∃ b, dedupDecisions ds = ([b], true) ∧ b ∈ ds ∧
        ∀ d ∈ ds, confKey d ≤ confKey b) := by
  match ds with
  | [] => exact ⟨by simp [dedupDecisions], by intro h; simp at h⟩
  | [d] => exact ⟨by simp [dedupDecisions], by intro h; simp at h⟩
  | d :: x :: rest =>
    refine ⟨by simp [dedupDecisions], ?_⟩
    intro _
    obtain ⟨hmem, hbound⟩ := bestDecision_spec d (x :: rest)
    exact ⟨bestDecision d (x :: rest), rfl, hmem, hbound⟩

/-- **C6 witness.** Three decisions with confidence `0.4`, `None` and `0.9`:
dedup keeps exactly the third and reports the event. -/
theorem dedup_keeps_best_witness :
    dedupDecisions [⟨some (2/5), 1⟩, ⟨none, 2⟩, ⟨some (9/10), 3⟩] =
      ([⟨some (9/10), 3⟩], true) ∧
      (⟨some (9/10), 3⟩ : DecSummary) ∈
        [(⟨some (2/5), 1⟩ : DecSummary), ⟨none, 2⟩, ⟨some (9/10), 3⟩] := by
  have h := (dedup_keeps_best [⟨some (2/5), 1⟩, ⟨none, 2⟩, ⟨some (9/10), 3⟩]).2
    (by norm_num)
  obtain ⟨b, heq, hmem, hbound⟩ := h
  have hb : b = ⟨some (9/10), 3⟩ := by
    have hval : dedupDecisions [⟨some (2/5), 1⟩, ⟨none, 2⟩, ⟨some (9/10), 3⟩] =
        ([⟨some (9/10), 3⟩], true) := by
      with_unfolding_all decide
    rw [hval] at heq
    have h2 := congrArg Prod.fst heq
    simp only [List.cons.injEq, and_true] at h2
    exact h2.symm
  subst hb
  exact ⟨heq, hmem⟩

/-! ## Adaptive invalid-stops (10016) retry (`mt5_executor.py` lines 748-836)

On broker retcode 10016 the executor re-fetches the tick, recomputes a wider
minimum distance (`max(symbol_floor, spread × retry_mult + retry_buffer) +
retry_safety`), re-anchors SL/TP relative to the current bid/ask, and
rescales the volume by `original_sl_distance / new_sl_distance` (distances
taken from the request's `entry` price), snapped to the broker volume step
with Python's banker's rounding. -/

/-- `invalid_stops_handling` retry configuration plus the per-symbol floor. -/
structure RetryCfg where
  symbol_floor_pts : ℚ
  retry_tick_spread_multiplier : ℚ
  retry_tick_spread_buffer_points : ℚ
  retry_safety_margin_points : ℚ
  deriving DecidableEq, Repr

/-- Symbol info and fresh tick read in the retry block. -/
structure RetryBrokerInfo where
  point : ℚ
  digits : ℕ
  volume_min : ℚ
  volume_max : ℚ
  volume_step : ℚ
  bid : ℚ
  ask : ℚ
  deriving DecidableEq, Repr

/-- The quantities the retry writes back into the order request. -/
structure RetryResult where
  min_required_pts : ℚ
  new_sl : ℚ
  new_tp : ℚ
  new_volume : ℚ
  deriving DecidableEq, Repr

/-- The retry stop/volume recomputation (`mt5_executor.py` 761-812). -/
def retryAdjust (cfg : RetryCfg) (info : RetryBrokerInfo) (orderType : Side)
    (entry original_sl volume : ℚ) : RetryResult :=
  let point := info.point
  let spread_pts := (info.ask - info.bid) / point
  let min_required_pts :=
    qMax cfg.symbol_floor_pts
      (spread_pts * cfg.retry_tick_spread_multiplier + cfg.retry_tick_spread_buffer_points)
    + cfg.retry_safety_margin_points
  let min_offset_price := min_required_pts * point
  let new_sl := match orderType with
    | .buy => pyRoundAt (info.ask - min_offset_price) info.digits
    | .sell => pyRoundAt (info.bid + min_offset_price) info.digits
  let new_tp := match orderType with
    | .buy => pyRoundAt (info.ask + min_offset_price) info.digits
    | .sell => pyRoundAt (info.bid - min_offset_price) info.digits
  let original_sl_distance := qAbs (original_sl - entry)
  let new_sl_distance := qAbs (new_sl - entry)
  let new_volume :=
    if 0 < new_sl_distance ∧ 0 < original_sl_distance then
      let scale_factor := original_sl_distance / new_sl_distance
      let nv := volume * scale_factor
      let nv2 := qMax info.volume_min (qMin nv info.volume_max)
      (pyRoundInt (nv2 / info.volume_step) : ℚ) * info.volume_step
    else volume
  ⟨min_required_pts, new_sl, new_tp, new_volume⟩

/-- Retry configuration of the C8 scenario
(`symbol_floor_pts = 50, retry_tick_spread_multiplier = 4,
retry_tick_spread_buffer_points = 30, retry_safety_margin_points = 20`). -/
def cfgC8 : RetryCfg := ⟨50, 4, 30, 20⟩

/-- Broker info of the C8 scenario: 5-digit symbol, point 0.00001,
bid 1.10078, ask 1.10082, volume step 0.01. -/
def infoC8 : RetryBrokerInfo :=
  ⟨1/100000, 5, 1/100, 100, 1/100, 110078/100000, 110082/100000⟩

/-- **C8 counterexample.** At the claim's inputs (entry 1.10080,
SL 1.09995, volume 0.29) the recomputed minimum required distance is
`max(50, 4×4+30) + 20 = 50 + 20 = 70` points — not 96 — so the retried BUY
order does not carry `SL = 1.09986`: the claim's arithmetic
(`max(50, 4×4+30)+20 = 96`) is wrong even on its own terms. -/
theorem retry_min_required_is_70_not_96 :
    (retryAdjust cfgC8 infoC8 Side.buy (110080/100000) (109995/100000)
        (29/100)).min_required_pts = 70 ∧ (70 : ℚ) ≠ 96 ∧
      (retryAdjust cfgC8 infoC8 Side.buy (110080/100000) (109995/100000)
        (29/100)).new_sl ≠ 109986/100000 := by
  refine ⟨?_, by norm_num, ?_⟩
  · norm_num [retryAdjust, cfgC8, infoC8, pyRoundAt, pyRoundInt, qAbs, qMax, qMin]
  · norm_num [retryAdjust, cfgC8, infoC8, pyRoundAt, pyRoundInt, qAbs, qMax, qMin]

/-- **C8 (amended).** With `symbol_floor_pts = 50`, `spread_pts = 4`,
`retry_tick_spread_multiplier = 4`, `retry_tick_spread_buffer_points = 30`,
`retry_safety_margin_points = 20`, bid 1.10078, ask 1.10082, point 0.00001,
entry 1.10080, original SL 1.09995 and volume 0.29: the recomputed minimum
required distance is `max(50, 4×4+30) + 20 = 70` points, the retried BUY
order carries `SL = ask − 70×point = 1.10012` and
`TP = ask + 70×point = 1.10152`, and the volume is rescaled by
`|original_sl − entry| / |new_sl − entry| = 85/68 = 1.25` from 0.29 to
0.3625, snapped to the broker volume step 0.01 as 0.36. -/
theorem retry_adjust_concrete_values :
    retryAdjust cfgC8 infoC8 Side.buy (110080/100000) (109995/100000) (29/100) =
      ⟨70, 110012/100000, 110152/100000, 36/100⟩ := by
  norm_num [retryAdjust, cfgC8, infoC8, pyRoundAt, pyRoundInt, qAbs, qMax, qMin]

/-! ## Trade journal (`core/orchestration/trade_journal.py`)

`record_outcome` skips when disabled, skips tickets already in the
recorded-ticket set, otherwise builds an outcome (minimal when no cached
entry, computed from the cached entry otherwise), appends it to the day's
journal, marks the ticket recorded and removes the cache entry.  Timestamps
are rational seconds.  The session/HTF snapshot fields of the records are
omitted here: `record_outcome` copies them verbatim without reading them. -/

/-- Python `sub in s` on strings. -/
def pyContains (sub s : String) : Bool :=
  if (s.splitOn sub).length = 1 then false else true

/-- Cached `TradeEntry` (`trade_journal.py` 21-41, snapshot fields omitted). -/
structure TradeEntry where
  ticket : ℕ
  symbol : String
  direction : String
  structure_type : String
  entry_time : ℚ
  entry_price : ℚ
  sl : ℚ
  tp : ℚ
  volume : ℚ
  intended_rr : ℚ
  deriving DecidableEq, Repr

/-- Journal record (`trade_journal.py` 44-72, snapshot fields omitted). -/
structure TradeOutcome where
  ticket : ℕ
  symbol : String
  direction : String
  structure_type : String
  entry_time : ℚ
  entry_price : ℚ
  sl : ℚ
  tp : ℚ
  volume : ℚ
  intended_rr : ℚ
  exit_time : ℚ
  exit_price : ℚ
  exit_reason : String
  pnl_pips : ℚ
  pnl_usd : ℚ
  achieved_rr : ℚ
  hold_time_minutes : ℚ
  outcome : String
  deriving DecidableEq, Repr

/-- `TradeJournal` state: `enabled`, `_entry_cache` (ticket-keyed),
`_recorded_tickets`, and the day's journal file contents. -/
structure JournalState where
  enabled : Bool
  entry_cache : List (ℕ × TradeEntry)
  recorded_tickets : List ℕ
  journal : List TradeOutcome
  deriving DecidableEq, Repr

/-- `"win" if pnl_usd > 0 else ("loss" if pnl_usd < 0 else "breakeven")`. -/
def classifyOutcome (pnl_usd : ℚ) : String :=
  if 0 < pnl_usd then "win" else if pnl_usd < 0 then "loss" else "breakeven"

/-- The outcome computed from a cached entry (`trade_journal.py` 238-303). -/
def outcomeFromEntry (entry : TradeEntry) (exit_price : ℚ) (exit_reason : String)
    (pnl_usd exit_time : ℚ) (point : Option ℚ) : TradeOutcome :=
  let direction_mult : ℚ := if entry.direction = "BUY" then 1 else -1
  let pnl_pips :=
    match point with
    | some p =>
      if 0 < p then (exit_price - entry.entry_price) * direction_mult / p
      else
        let estimated_point : ℚ :=
          if pyContains "XAU" entry.symbol then 1/100
          else if pyContains "JPY" entry.symbol then 1/100 else 1/10000
        (exit_price - entry.entry_price) * direction_mult / estimated_point
    | none =>
      let estimated_point : ℚ :=
        if pyContains "XAU" entry.symbol then 1/100
        else if pyContains "JPY" entry.symbol then 1/100 else 1/10000
      (exit_price - entry.entry_price) * direction_mult / estimated_point
  let risk_distance := qAbs (entry.entry_price - entry.sl)
  let achieved_rr :=
    if 0 < risk_distance then (exit_price - entry.entry_price) * direction_mult / risk_distance
    else 0
  let hold_time_minutes := (exit_time - entry.entry_time) / 60
  { ticket := entry.ticket, symbol := entry.symbol, direction := entry.direction,
    structure_type := entry.structure_type, entry_time := entry.entry_time,
    entry_price := entry.entry_price, sl := entry.sl, tp := entry.tp,
    volume := entry.volume, intended_rr := entry.intended_rr,
    exit_time := exit_time, exit_price := exit_price, exit_reason := exit_reason,
    pnl_pips := pyRoundAt pnl_pips 1, pnl_usd := pyRoundAt pnl_usd 2,
    achieved_rr := pyRoundAt achieved_rr 2,
    hold_time_minutes := pyRoundAt hold_time_minutes 1,
    outcome := classifyOutcome pnl_usd }

/-- The minimal outcome recorded when no cached entry exists
(`trade_journal.py` 207-237). -/
def minimalOutcome (ticket : ℕ) (exit_price : ℚ) (exit_reason : String)
    (pnl_usd exit_time : ℚ) (symbol : Option String) (volume : Option ℚ) : TradeOutcome :=
  { ticket := ticket, symbol := symbol.getD "UNKNOWN", direction := "UNKNOWN",
    structure_type := "unknown", entry_time := 0, entry_price := 0, sl := 0, tp := 0,
    volume := volume.getD 0, intended_rr := 0, exit_time := exit_time,
    exit_price := exit_price, exit_reason := exit_reason, pnl_pips := 0,
    pnl_usd := pnl_usd, achieved_rr := 0, hold_time_minutes := 0,
    outcome := classifyOutcome pnl_usd }

/-- `TradeJournal.record_outcome` (`trade_journal.py` 178-331). -/
def record_outcome (st : JournalState) (ticket : ℕ) (exit_price : ℚ)
    (exit_reason : String) (pnl_usd exit_time : ℚ) (symbol : Option String)
    (volume : Option ℚ) (point : Option ℚ) : Option TradeOutcome × JournalState :=
  if ¬st.enabled then (none, st)
  else if ticket ∈ st.recorded_tickets then (none, st)
  else
    match st.entry_cache.lookup ticket with
    | none =>
      let outcome := minimalOutcome ticket exit_price exit_reason pnl_usd exit_time
        symbol volume
      (some outcome,
        { st with
          journal := st.journal ++ [outcome],
          recorded_tickets := ticket :: st.recorded_tickets })
    | some entry =>
      let outcome := outcomeFromEntry entry exit_price exit_reason pnl_usd exit_time point
      (some outcome,
        { st with
          journal := st.journal ++ [outcome],
          recorded_tickets := ticket :: st.recorded_tickets,
          entry_cache := st.entry_cache.filter (fun p => p.1 != ticket) })

/-- Association-list lookup yields a member pair. -/
theorem lookup_mem_pair (l : List (ℕ × TradeEntry)) (a : ℕ) (b : TradeEntry)
    (h : l.lookup a = some b) : (a, b) ∈ l := by
  induction l with
  | nil => simp [List.lookup] at h
  | cons p rest ih =>
    obtain ⟨k, v⟩ := p
    rw [List.lookup] at h
    by_cases hk : a == k
    · rw [hk] at h
      obtain rfl := Option.some.inj h
      rw [eq_of_beq hk]
      exact List.mem_cons_self _ _
    · rw [Bool.not_eq_true] at hk
      rw [hk] at h
      exact List.mem_cons_of_mem _ (ih h)

/-- **C9.** `record_outcome` records at most one outcome per ticket: with the
journal enabled and the entry cache keyed consistently, the first call for a
ticket appends exactly one record (with that ticket) to the day's journal
and marks the ticket recorded; a call for an already-recorded ticket returns
`None` and changes nothing; and any second call with the same ticket —
whatever its other arguments — returns `None` and appends nothing. -/
theorem record_outcome_idempotent (st : JournalState) (ticket : ℕ) (ep : ℚ)
    (er : String) (pnl et : ℚ) (sy : Option String) (vo : Option ℚ) (pt : Option ℚ)
    (hen : st.enabled = true)
    (hcache : ∀ p ∈ st.entry_cache, (p.2).ticket = p.1) :
    (ticket ∉ st.recorded_tickets →
      ∃ o, (record_outcome st ticket ep er pnl et sy vo pt).1 = some o ∧
        o.ticket = ticket ∧
        (record_outcome st ticket ep er pnl et sy vo pt).2.journal = st.journal ++ [o] ∧
        (record_outcome st ticket ep er pnl et sy vo pt).2.recorded_tickets =
          ticket :: st.recorded_tickets ∧
        (record_outcome st ticket ep er pnl et sy vo pt).2.enabled = st.enabled) ∧
    (ticket ∈ st.recorded_tickets →
      record_outcome st ticket ep er pnl et sy vo pt = (none, st)) ∧
    (∀ ep2 er2 pnl2 et2 sy2 vo2 pt2,
      record_outcome (record_outcome st ticket ep er pnl et sy vo pt).2 ticket
          ep2 er2 pnl2 et2 sy2 vo2 pt2 =
        (none, (record_outcome st ticket ep er pnl et sy vo pt).2)) := by
  have hskip : ∀ (s2 : JournalState), s2.enabled = true → ticket ∈ s2.recorded_tickets →
      ∀ ep2 er2 pnl2 et2 sy2 vo2 pt2,
        record_outcome s2 ticket ep2 er2 pnl2 et2 sy2 vo2 pt2 = (none, s2) := by
    intro s2 h1 h2 ep2 er2 pnl2 et2 sy2 vo2 pt2
    simp [record_outcome, h1, h2]
  have hfirst : ticket ∉ st.recorded_tickets →
      ∃ o, (record_outcome st ticket ep er pnl et sy vo pt).1 = some o ∧
        o.ticket = ticket ∧
        (record_outcome st ticket ep er pnl et sy vo pt).2.journal = st.journal ++ [o] ∧
        (record_outcome st ticket ep er pnl et sy vo pt).2.recorded_tickets =
          ticket :: st.recorded_tickets ∧
        (record_outcome st ticket ep er pnl et sy vo pt).2.enabled = st.enabled := by
    intro hnot
    simp only [record_outcome]
    rw [if_neg (by simp [hen]), if_neg hnot]
    rcases hl : st.entry_cache.lookup ticket with _ | entry
    · exact ⟨_, rfl, rfl, rfl, rfl, rfl⟩
    · have hmem := lookup_mem_pair _ _ _ hl
      have hticket : entry.ticket = ticket := hcache (ticket, entry) hmem
      exact ⟨_, rfl, hticket, rfl, rfl, rfl⟩
  refine ⟨hfirst, ?_, ?_⟩
  · intro hmem
    exact hskip st hen hmem ep er pnl et sy vo pt
  · intro ep2 er2 pnl2 et2 sy2 vo2 pt2
    by_cases hmem : ticket ∈ st.recorded_tickets
    · rw [hskip st hen hmem ep er pnl et sy vo pt]
      exact hskip st hen hmem ep2 er2 pnl2 et2 sy2 vo2 pt2
    · obtain ⟨o, _, _, _, hrec, hen2⟩ := hfirst hmem
      refine hskip _ (hen2.trans hen) ?_ ep2 er2 pnl2 et2 sy2 vo2 pt2
      rw [hrec]
      exact List.mem_cons_self _ _

/-- Cached entry used by the C9 witness. -/
def entryW : TradeEntry := ⟨5, "EURUSD", "BUY", "fair_value_gap", 0, 11, 19/2, 16, 1/2, 3/2⟩

/-- **C9 witness.** A journal with one cached entry (ticket 5) and nothing
recorded: the first `record_outcome` call for ticket 5 appends exactly one
record with ticket 5 and marks it recorded. -/
theorem record_outcome_idempotent_witness :
    ∃ o, (record_outcome ⟨true, [(5, entryW)], [], []⟩ 5 12 "tp_hit" 25 600 none none
        (some (1/10))).1 = some o ∧
      o.ticket = 5 ∧
      (record_outcome ⟨true, [(5, entryW)], [], []⟩ 5 12 "tp_hit" 25 600 none none
        (some (1/10))).2.journal = [] ++ [o] ∧
      (record_outcome ⟨true, [(5, entryW)], [], []⟩ 5 12 "tp_hit" 25 600 none none
        (some (1/10))).2.recorded_tickets = [5] ∧
      (record_outcome ⟨true, [(5, entryW)], [], []⟩ 5 12 "tp_hit" 25 600 none none
        (some (1/10))).2.enabled = true := by
  exact (record_outcome_idempotent ⟨true, [(5, entryW)], [], []⟩ 5 12 "tp_hit" 25 600
    none none (some (1/10)) rfl
    (by
      intro p hp
      rw [List.mem_singleton] at hp
      subst hp
      rfl)).1 (by simp)

/-! ## Symbol onboarding (`core/orchestration/symbol_onboarding.py`)

`record_decisions` counts a session toward `sessions_seen` (and appends it
to the persisted `seen_sessions` list) only when the decisions list is
non-empty and `session_id` is truthy and not previously seen; `trades_seen`
and `validation_errors` are updated unconditionally, and automatic promotion
fires when the (updated) counters meet the probation thresholds. -/

/-- `DecisionType` (`core/models/decision.py`). -/
inductive DecisionType
  | buy
  | sell
  | close
  | hold
  deriving DecidableEq, Repr

/-- Merged onboarding state for one symbol (`get_state` output /
`state_entry` contents). -/
structure OnbState where
  state : String
  execute_when_promoted : Bool
  probation_min_sessions : ℤ
  probation_min_trades : ℤ
  max_validation_errors : ℤ
  sessions_seen : ℤ
  trades_seen : ℤ
  validation_errors : ℤ
  seen_sessions : List String
  last_promotion_ts : Option ℚ
  deriving DecidableEq, Repr

/-- `d.decision_type in (DecisionType.BUY, DecisionType.SELL)`. -/
def isEntryDecision (d : DecisionType) : Bool :=
  match d with
  | .buy => true
  | .sell => true
  | .close => false
  | .hold => false

/-- Number of BUY/SELL decisions (`trade_increments`). -/
def tradeIncrements (decisions : List DecisionType) : ℤ :=
  (decisions.filter isEntryDecision).length

/-- `if decisions and session_id: if session_id not in seen_sessions:` —
the condition under which a new session is counted (Python truthiness:
`None` and `""` are falsy). -/
def newSessionFlag (st : OnbState) (decisions : List DecisionType)
    (session_id : Option String) : Bool :=
  match session_id with
  | none => false
  | some s =>
    if decisions ≠ [] ∧ s ≠ "" ∧ s ∉ st.seen_sessions then true else false

/-- The `seen_sessions` list after the conditional append. -/
def updatedSeenSessions (st : OnbState) (decisions : List DecisionType)
    (session_id : Option String) : List String :=
  match session_id with
  | none => st.seen_sessions
  | some s =>
    if decisions ≠ [] ∧ s ≠ "" ∧ s ∉ st.seen_sessions then st.seen_sessions ++ [s]
    else st.seen_sessions

/-- `SymbolOnboardingManager.record_decisions`
(`symbol_onboarding.py` 104-206): session counting, trade/error counters,
write-back and automatic promotion (timestamped `now`). -/
def record_decisions (st : OnbState) (decisions : List DecisionType)
    (session_id : Option String) (v : ℤ) (now : ℚ) : OnbState :=
  let seen' := updatedSeenSessions st decisions session_id
  let sessions_seen' :=
    if newSessionFlag st decisions session_id then st.sessions_seen + 1 else st.sessions_seen
  let trades_seen' := st.trades_seen + tradeIncrements decisions
  let validation_errors' := st.validation_errors + v
  let eligible := st.state ≠ "promoted" ∧ st.probation_min_sessions ≤ sessions_seen' ∧
    st.probation_min_trades ≤ trades_seen' ∧ validation_errors' ≤ st.max_validation_errors
  if eligible then
    { st with
      state := "promoted", last_promotion_ts := some now, seen_sessions := seen',
      sessions_seen := sessions_seen', trades_seen := trades_seen',
      validation_errors := validation_errors' }
  else
    { st with
      seen_sessions := seen', sessions_seen := sessions_seen', trades_seen := trades_seen',
      validation_errors := validation_errors' }

/-- **C10.** `record_decisions` leaves `sessions_seen` and the persisted
`seen_sessions` list unchanged whenever the decisions list is empty or
`session_id` is absent (Python-falsy), even for a session never observed
before; `trades_seen` and `validation_errors` are still updated on such
calls; and the only way `sessions_seen` can change is a call with at least
one decision and a fresh truthy session id — so only sessions in which the
symbol produced at least one decision count toward the
`probation_min_sessions` promotion threshold. -/
theorem record_decisions_session_frame (st : OnbState) (decisions : List DecisionType)
    (session_id : Option String) (v : ℤ) (now : ℚ) :
    ((decisions = [] ∨ session_id = none ∨ session_id = some "") →
      (record_decisions st decisions session_id v now).sessions_seen = st.sessions_seen ∧
      (record_decisions st decisions session_id v now).seen_sessions = st.seen_sessions) ∧
    (record_decisions st decisions session_id v now).trades_seen =
      st.trades_seen + tradeIncrements decisions ∧
    (record_decisions st decisions session_id v now).validation_errors =
      st.validation_errors + v ∧
    ((record_decisions st decisions session_id v now).sessions_seen ≠ st.sessions_seen →
      decisions ≠ [] ∧ ∃ s, session_id = some s ∧ s ≠ "" ∧ s ∉ st.seen_sessions) := by
  have hss : (record_decisions st decisions session_id v now).sessions_seen =
      (if newSessionFlag st decisions session_id then st.sessions_seen + 1
        else st.sessions_seen) := by
    simp only [record_decisions]
    split <;> (first | rfl | (split <;> rfl))
  have hseen : (record_decisions st decisions session_id v now).seen_sessions =
      updatedSeenSessions st decisions session_id := by
    simp only [record_decisions]
    split <;> (first | rfl | (split <;> rfl))
  have htr : (record_decisions st decisions session_id v now).trades_seen =
      st.trades_seen + tradeIncrements decisions := by
    simp only [record_decisions]
    split <;> (first | rfl | (split <;> rfl))
  have hve : (record_decisions st decisions session_id v now).validation_errors =
      st.validation_errors + v := by
    simp only [record_decisions]
    split <;> (first | rfl | (split <;> rfl))
  refine ⟨?_, htr, hve, ?_⟩
  · intro hcase
    rcases session_id with _ | s
    · refine ⟨?_, ?_⟩
      · rw [hss]
        simp [newSessionFlag]
      · rw [hseen]
        rfl
    · have hflag : newSessionFlag st decisions (some s) = false := by
        rcases hcase with hd | hn | hs
        · simp [newSessionFlag, hd]
        · exact absurd hn (by simp)
        · obtain rfl := Option.some.inj hs
          simp [newSessionFlag]
      refine ⟨?_, ?_⟩
      · rw [hss, hflag, if_neg]
        simp
      · rw [hseen]
        rcases hcase with hd | hn | hs
        · simp [updatedSeenSessions, hd]
        · exact absurd hn (by simp)
        · obtain rfl := Option.some.inj hs
          simp [updatedSeenSessions]
  · intro hne
    rw [hss] at hne
    by_cases hflag : newSessionFlag st decisions session_id = true
    · rcases session_id with _ | s
      · simp [newSessionFlag] at hflag
      · simp only [newSessionFlag] at hflag
        split at hflag
        · rename_i hcond
          exact ⟨hcond.1, s, rfl, hcond.2.1, hcond.2.2⟩
        · exact absurd hflag (by simp)
    · rw [Bool.not_eq_true] at hflag
      rw [hflag] at hne
      simp at hne

/-- **C10 witness.** A never-seen session `"LONDON"` with an empty decisions
list: `sessions_seen` (2) and `seen_sessions` (`["ASIA"]`) are unchanged,
while `validation_errors` still advances by 3. -/
theorem record_decisions_session_frame_witness :
    (record_decisions ⟨"observe_only", true, 5, 5, 2, 2, 1, 0, ["ASIA"], none⟩ []
        (some "LONDON") 3 0).sessions_seen = 2 ∧
      (record_decisions ⟨"observe_only", true, 5, 5, 2, 2, 1, 0, ["ASIA"], none⟩ []
        (some "LONDON") 3 0).seen_sessions = ["ASIA"] ∧
      (record_decisions ⟨"observe_only", true, 5, 5, 2, 2, 1, 0, ["ASIA"], none⟩ []
        (some "LONDON") 3 0).validation_errors = 0 + 3 := by
  obtain ⟨hframe, _, hve, _⟩ := record_decisions_session_frame
    ⟨"observe_only", true, 5, 5, 2, 2, 1, 0, ["ASIA"], none⟩ [] (some "LONDON") 3 0
  obtain ⟨h1, h2⟩ := hframe (Or.inl rfl)
  exact ⟨h1, h2, hve⟩

end DEVI
